import Mathlib

/-!
Verification of `tensorflow_probability/python/internal/nest_util.py`
against its natural-language specification.

The module manipulates Python "nest" structures: arbitrarily nested
lists/tuples, namedtuples and dicts whose leaves are raw scalars, numpy
arrays or tensors.  We embed that universe shallowly:

* `Struct` is the closed universe of Python values the module handles.
  TFP's two override markers (`_tfp_nest_expansion_force_leaf` and
  `_tfp_nest_expansion_force_args`, attached as attributes to arbitrary
  objects in Python) are modelled as a `Marks` record carried by every node.
* `Tensor` is the canonical typed representation produced by the external
  leaf converter `tf.convert_to_tensor`; it records the `name` it was
  created with, which makes name forwarding observable.
* Errors are explicit: `Except PyErr` replaces Python exceptions.
  `tf.convert_to_tensor` raises `ValueError`/`TypeError` on structures it
  cannot convert (dicts, ragged sequences); a leaf with a registered
  conversion function may raise anything, modelled by `LeafVal.raises`.

Dict entries are stored in key order (tf.nest traverses dicts in sorted
key order; the model stores dict entries already sorted, and no theorem
below depends on dict ordering).  Python strings are atoms here, as they
are for `tf.nest`.
-/

/-- Element dtypes of the canonical typed representation. -/
inductive DType where
  | i32
  | f32
  | strT
  deriving DecidableEq, Repr

/-- Scalar payloads stored inside tensors. -/
inductive Scalar where
  | i (n : Int)
  | s (st : String)
  deriving DecidableEq, Repr

/-- The canonical typed value produced by the leaf converter
(`tf.convert_to_tensor`).  `name` records the `name=` argument the tensor
was created with (`none` when no name was passed), mirroring graph-mode
tensor naming; it makes the name-forwarding policy observable. -/
structure Tensor where
  dtype : DType
  shape : List Nat
  data : List Scalar
  name : Option String
  deriving DecidableEq, Repr

/-- Error kinds a registered per-value conversion function may raise. -/
inductive ErrKind where
  | valueErr
  | typeErr
  | otherErr
  deriving DecidableEq, Repr

/-- The two TFP override markers, `_tfp_nest_expansion_force_leaf` and
`_tfp_nest_expansion_force_args` (nest_util.py lines 71-78). -/
structure Marks where
  forceLeaf : Bool
  forceArgs : Bool
  deriving DecidableEq, Repr

/-- A value with no override markers attached. -/
def noMarks : Marks := ⟨false, false⟩

/-- Atomic (non-nest) Python values: raw scalars, strings, tensors, numpy
arrays, and objects whose registered conversion function raises. -/
inductive LeafVal where
  | int (n : Int)
  | str (st : String)
  | tensor (t : Tensor)
  | ndarray (dt : DType) (sh : List Nat) (da : List Scalar)
  | raises (k : ErrKind) (msg : String)
  deriving DecidableEq, Repr

mutual
/-- The universe of Python values handled by nest_util: an atom, a plain
sequence (list/tuple), a namedtuple (type name + field names + values), or
a dict (keys + values, stored in key order). -/
inductive Struct where
  | atom (m : Marks) (v : LeafVal)
  | seq (m : Marks) (xs : StructList)
  | ntup (m : Marks) (tname : String) (fields : List String) (xs : StructList)
  | dict (m : Marks) (keys : List String) (xs : StructList)
  deriving DecidableEq, Repr

/-- Children of a composite node. -/
inductive StructList where
  | nil
  | cons (x : Struct) (xs : StructList)
  deriving DecidableEq, Repr
end

/-- A path component: integer index into a sequence, or key/field name. -/
inductive Key where
  | idx (n : Nat)
  | key (s : String)
  deriving DecidableEq, Repr

/-- Python exceptions raised by the module or the leaf converter.
`notImplemented` is the implicit-stack error of `convert_to_nested_tensor`
(nest_util.py lines 261-263); it carries the offending path and value. -/
inductive PyErr where
  | valueError (msg : String)
  | typeError (msg : String)
  | notImplemented (path : List Key) (offending : Struct)
  | other (msg : String)
  deriving DecidableEq, Repr

/-- Map an `ErrKind` raised by a registered conversion function to the
exception the converter surfaces. -/
def ErrKind.toPyErr : ErrKind → String → PyErr
  | .valueErr, m => .valueError m
  | .typeErr, m => .typeError m
  | .otherErr, m => .other m

def StructList.toList : StructList → List Struct
  | .nil => []
  | .cons x xs => x :: xs.toList

def StructList.length : StructList → Nat
  | .nil => 0
  | .cons _ xs => xs.length + 1

/-- `tf.nest.is_nested`: true exactly on sequences, namedtuples and dicts.
Override markers are invisible to `tf.nest`. -/
def isNested : Struct → Bool
  | .atom _ _ => false
  | _ => true

/-- `isinstance(args, collections.Sequence)`: lists/tuples and namedtuples
(a namedtuple is a tuple subclass).  Atoms of the modelled universe are
not sequences. -/
def isSequence : Struct → Bool
  | .seq _ _ => true
  | .ntup _ _ _ _ => true
  | _ => false

/-- `nest._is_namedtuple` (nest_util.py line 34). -/
def isNamedtuple : Struct → Bool
  | .ntup _ _ _ _ => true
  | _ => false

/-- `isinstance(args, collections.Mapping)`. -/
def isMapping : Struct → Bool
  | .dict _ _ _ => true
  | _ => false

/-- Marker record of a node. -/
def Struct.marks : Struct → Marks
  | .atom m _ => m
  | .seq m _ => m
  | .ntup m _ _ _ => m
  | .dict m _ _ => m

/-- `_force_leaf` (nest_util.py line 71): the value carries the
`_tfp_nest_expansion_force_leaf` attribute. -/
def forceLeaf (s : Struct) : Bool := s.marks.forceLeaf

/-- `_force_expand_as_args` (nest_util.py line 77): the value carries the
`_tfp_nest_expansion_force_args` attribute. -/
def forceExpandAsArgs (s : Struct) : Bool := s.marks.forceArgs

mutual
/-- `tf.nest.flatten`: the leaves of a structure, in traversal order. -/
def flatten : Struct → List Struct
  | .atom m v => [.atom m v]
  | .seq _ xs => flattenList xs
  | .ntup _ _ _ xs => flattenList xs
  | .dict _ _ xs => flattenList xs

def flattenList : StructList → List Struct
  | .nil => []
  | .cons x xs => flatten x ++ flattenList xs
end

mutual
/-- `tf.nest.map_structure(lambda _: x, t)`: replace every leaf of `t`
by `x`.  Containers are rebuilt (`pack_sequence_as`), so instance
attributes — the override markers — are not carried over. -/
def replaceLeaves (t : Struct) (x : Struct) : Struct :=
  match t with
  | .atom _ _ => x
  | .seq _ xs => .seq noMarks (replaceLeavesList xs x)
  | .ntup _ tn fs xs => .ntup noMarks tn fs (replaceLeavesList xs x)
  | .dict _ ks xs => .dict noMarks ks (replaceLeavesList xs x)

def replaceLeavesList (ts : StructList) (x : Struct) : StructList :=
  match ts with
  | .nil => .nil
  | .cons t rest => .cons (replaceLeaves t x) (replaceLeavesList rest x)
end

mutual
/-- The Shape of a structure: its leaf-erased skeleton — container kinds,
key sets, field names and order, with markers erased. -/
inductive Shape where
  | leaf
  | seqS (xs : ShapeList)
  | ntupS (tname : String) (fields : List String) (xs : ShapeList)
  | dictS (keys : List String) (xs : ShapeList)
  deriving DecidableEq, Repr

inductive ShapeList where
  | nil
  | cons (x : Shape) (xs : ShapeList)
  deriving DecidableEq, Repr
end

mutual
def shapeOf : Struct → Shape
  | .atom _ _ => .leaf
  | .seq _ xs => .seqS (shapeOfList xs)
  | .ntup _ tn fs xs => .ntupS tn fs (shapeOfList xs)
  | .dict _ ks xs => .dictS ks (shapeOfList xs)

def shapeOfList : StructList → ShapeList
  | .nil => .nil
  | .cons x xs => .cons (shapeOf x) (shapeOfList xs)
end

/-- `broadcast_structure(to_structure, from_structure)`
(nest_util.py lines 37-68): flatten `from_structure`; if it has exactly
one part, tile that part over the shape of `to_structure`
(`tf.nest.map_structure(lambda _: from_parts[0], to_structure)`);
otherwise return `from_structure` unchanged. -/
def broadcast_structure (toStructure fromStructure : Struct) : Struct :=
  match flatten fromStructure with
  | [p] => replaceLeaves toStructure p
  | _ => fromStructure

/-- `expand_as_args(args)` (nest_util.py lines 81-85): expand as `*args`
iff `args` is a Sequence that is neither a namedtuple nor force-leaf,
or the force-args marker is present. -/
def expand_as_args (args : Struct) : Bool :=
  (isSequence args && !isNamedtuple args && !forceLeaf args)
    || forceExpandAsArgs args

/-- `_expand_as_kwargs(args)` (nest_util.py lines 88-90): expand as
`**args` iff `args` is a Mapping and not force-leaf. -/
def expandAsKwargs (args : Struct) : Bool :=
  isMapping args && !forceLeaf args

/-- How `call_fn` ends up invoking `fn`: positionally expanded
(`fn(*args)`), keyword expanded (`fn(**args)`), or as one argument
(`fn(args)`). -/
inductive Invocation where
  | positional (xs : List Struct)
  | keyword (keys : List String) (vals : List Struct)
  | single (v : Struct)
  deriving DecidableEq, Repr

/-- Python iteration `*args`: a sequence or namedtuple yields its
elements; a dict yields its keys (as strings); an atom is not iterable. -/
def starList : Struct → Option (List Struct)
  | .seq _ xs => some xs.toList
  | .ntup _ _ _ xs => some xs.toList
  | .dict _ ks _ => some (ks.map fun k => Struct.atom noMarks (.str k))
  | .atom _ _ => none

/-- `call_fn(fn, args)` (nest_util.py lines 191-216): `fn(*args)` if
`expand_as_args(args)`, else `fn(**args)` if `_expand_as_kwargs(args)`,
else `fn(args)`.  `fn` is modelled as a function of the `Invocation` it
receives; `fn(*atom)` on a non-iterable raises `TypeError` at the call
site. -/
def call_fn {R : Type} (fn : Invocation → R) (args : Struct) : Except PyErr R :=
  if expand_as_args args then
    match starList args with
    | some xs => .ok (fn (.positional xs))
    | none => .error (.typeError "argument after star must be an iterable")
  else if expandAsKwargs args then
    match args with
    | .dict _ ks xs => .ok (fn (.keyword ks xs.toList))
    | _ => .error (.typeError "unreachable: kwargs expansion of a non-dict")
  else .ok (fn (.single args))

/-- The spec's Structure Classifier (spec section 4.1), written from the
spec's words to compare with the code's dispatch: 1. force-leaf → Leaf;
2. keyed mapping → KeyedComposite; 3. fixed-field record →
RecordComposite; 4. ordered sequence → PositionalComposite;
5. force-positional → PositionalComposite; 6. otherwise Leaf. -/
inductive SpecClass where
  | leafC
  | positionalComposite
  | keyedComposite
  | recordComposite
  deriving DecidableEq, Repr

/-- Modelled from the spec (section 4.1 rules 1-6); the classifier is not
a separate function in the source, whose dispatch lives in
`expand_as_args`/`_expand_as_kwargs`. -/
def specClassify (v : Struct) : SpecClass :=
  if forceLeaf v then .leafC
  else if isMapping v then .keyedComposite
  else if isNamedtuple v then .recordComposite
  else if isSequence v then .positionalComposite
  else if forceExpandAsArgs v then .positionalComposite
  else .leafC

/-- Whether an atom's raw value stacks as the given dtype (used when
`convert_to_tensor` infers or checks element dtypes). -/
def DType.acceptsInt : DType → Bool
  | .i32 => true
  | .f32 => true
  | .strT => false

/-- Stack a list of tensors along a new leading dimension, as
`tf.convert_to_tensor` does for a sequence: all elements must share dtype
and shape, else `ValueError`.  An empty sequence becomes a rank-1 tensor
of extent 0 with the constrained (or default float) dtype. -/
def stackTensors (ts : List Tensor) (dtype hint : Option DType)
    (name : Option String) : Except PyErr Tensor :=
  match ts with
  | [] => .ok ⟨(dtype.getD (hint.getD .f32)), [0], [], name⟩
  | t :: rest =>
    if rest.all fun u => u.dtype = t.dtype && u.shape = t.shape then
      .ok ⟨t.dtype, (rest.length + 1) :: t.shape,
           (t :: rest).flatMap Tensor.data, name⟩
    else .error (.valueError "cannot convert ragged or mixed sequence to a tensor")

mutual
/-- The external leaf converter `tf.convert_to_tensor(value, dtype,
dtype_hint, name)`, modelled over the `Struct` universe: scalars become
rank-0 tensors; tensors pass through unchanged (dtype checked); numpy
arrays become tensors; dicts are unconvertible (`TypeError`); sequences
and namedtuples convert their elements and stack them; a value with a
raising registered conversion function raises.  A concrete `dtype`
mismatch is an error; a `dtype_hint` mismatch is silently ignored. -/
def convertToTensor (s : Struct) (dtype hint : Option DType)
    (name : Option String) : Except PyErr Tensor :=
  match s with
  | .atom _ (.int n) =>
    match dtype with
    | some d =>
      if d.acceptsInt then .ok ⟨d, [], [.i n], name⟩
      else .error (.typeError "cannot convert an integer to a string tensor")
    | none =>
      match hint with
      | some h => if h.acceptsInt then .ok ⟨h, [], [.i n], name⟩
                  else .ok ⟨.i32, [], [.i n], name⟩
      | none => .ok ⟨.i32, [], [.i n], name⟩
  | .atom _ (.str st) =>
    match dtype with
    | some .strT => .ok ⟨.strT, [], [.s st], name⟩
    | some _ => .error (.typeError "cannot convert a string to a numeric tensor")
    | none =>
      match hint with
      | some .strT => .ok ⟨.strT, [], [.s st], name⟩
      | _ => .ok ⟨.strT, [], [.s st], name⟩
  | .atom _ (.tensor t) =>
    match dtype with
    | some d =>
      if t.dtype = d then .ok t
      else .error (.valueError "tensor conversion requested with an incompatible dtype")
    | none => .ok t
  | .atom _ (.ndarray dt sh da) =>
    match dtype with
    | some d =>
      if dt = d then .ok ⟨dt, sh, da, name⟩
      else .error (.valueError "array conversion requested with an incompatible dtype")
    | none => .ok ⟨dt, sh, da, name⟩
  | .atom _ (.raises k msg) => .error (k.toPyErr msg)
  | .dict _ _ _ =>
    .error (.typeError "attempt to convert a value with an unsupported type (dict) to a tensor")
  | .seq _ xs =>
    match convertChildrenToTensor xs dtype hint with
    | .ok ts => stackTensors ts dtype hint name
    | .error e => .error e
  | .ntup _ _ _ xs =>
    match convertChildrenToTensor xs dtype hint with
    | .ok ts => stackTensors ts dtype hint name
    | .error e => .error e

/-- Elementwise conversion performed inside `tf.convert_to_tensor` on the
children of a sequence, before stacking.  Child conversions carry no
name. -/
def convertChildrenToTensor (xs : StructList) (dtype hint : Option DType) :
    Except PyErr (List Tensor) :=
  match xs with
  | .nil => .ok []
  | .cons x rest =>
    match convertToTensor x dtype hint none with
    | .ok t =>
      match convertChildrenToTensor rest dtype hint with
      | .ok ts => .ok (t :: ts)
      | .error e => .error e
    | .error e => .error e
end

/-- Wrap a converted tensor back into the `Struct` universe. -/
def atomize (t : Tensor) : Struct := .atom noMarks (.tensor t)

/-- `_maybe_convertible_to_tensor` (nest_util.py lines 93-95): attempt
whole-structure conversion unless the value is a namedtuple without the
force-leaf marker. -/
def maybeConvertibleToTensor (s : Struct) : Bool :=
  !isNamedtuple s || forceLeaf s

/-- The errors `_nested_convert_to_tensor` treats as recoverable
(nest_util.py line 113: `except (ValueError, TypeError)`). -/
def isRecoverable : PyErr → Bool
  | .valueError _ => true
  | .typeError _ => true
  | _ => false

mutual
/-- `_nested_convert_to_tensor(struct, dtype, name)` (nest_util.py lines
104-119).  If `dtype` is given or `struct` is not nested, convert
directly with `tf.convert_to_tensor(struct, dtype=dtype)` — no name.
Otherwise, when `_maybe_convertible_to_tensor(struct)`, try converting
the structure wholesale with `tf.convert_to_tensor(struct, name=name)`,
catching only `ValueError`/`TypeError`; on such a failure (or when the
wholesale attempt is skipped for a namedtuple) recurse into the immediate
children via the shallow structure, reassembling the container kind. -/
def nestedConvertToTensor (s : Struct) (dtype : Option DType)
    (name : Option String) : Except PyErr Struct :=
  match s, dtype with
  | s, some d => Except.map atomize (convertToTensor s (some d) none none)
  | .atom m v, none =>
    Except.map atomize (convertToTensor (.atom m v) none none none)
  | .seq m xs, none =>
    match convertToTensor (.seq m xs) none none name with
    | .ok t => .ok (atomize t)
    | .error e =>
      if isRecoverable e then
        Except.map (Struct.seq noMarks) (nestedConvertList xs name)
      else .error e
  | .dict m ks xs, none =>
    match convertToTensor (.dict m ks xs) none none name with
    | .ok t => .ok (atomize t)
    | .error e =>
      if isRecoverable e then
        Except.map (Struct.dict noMarks ks) (nestedConvertList xs name)
      else .error e
  | .ntup m tn fs xs, none =>
    if m.forceLeaf then
      match convertToTensor (.ntup m tn fs xs) none none name with
      | .ok t => .ok (atomize t)
      | .error e =>
        if isRecoverable e then
          Except.map (Struct.ntup noMarks tn fs) (nestedConvertList xs name)
        else .error e
    else Except.map (Struct.ntup noMarks tn fs) (nestedConvertList xs name)

/-- `nest.map_structure_up_to(shallow_struct, lambda s:
_nested_convert_to_tensor(s, name=name), struct)` over the children of a
composite (nest_util.py lines 117-119). -/
def nestedConvertList (xs : StructList) (name : Option String) :
    Except PyErr StructList :=
  match xs with
  | .nil => .ok .nil
  | .cons x rest =>
    match nestedConvertToTensor x none name with
    | .ok y =>
      match nestedConvertList rest name with
      | .ok ys => .ok (.cons y ys)
      | .error e => .error e
    | .error e => .error e
end

/-- The fallback recursion of `_nested_convert_to_tensor` (lines 117-119)
as a standalone expression: build the shallow structure of `s` and map
`_nested_convert_to_tensor(·, name=name)` over its immediate children,
reassembling the original container kind (with fresh containers, hence no
markers). -/
def fallbackConvert (s : Struct) (name : Option String) : Except PyErr Struct :=
  match s with
  | .atom m v => Except.map atomize (convertToTensor (.atom m v) none none none)
  | .seq _ xs => Except.map (Struct.seq noMarks) (nestedConvertList xs name)
  | .ntup _ tn fs xs =>
    Except.map (Struct.ntup noMarks tn fs) (nestedConvertList xs name)
  | .dict _ ks xs =>
    Except.map (Struct.dict noMarks ks) (nestedConvertList xs name)

mutual
/-- A structure of dtype constraints: the `dtype`/`dtype_hint` arguments
of `convert_args_to_tensor` and `convert_to_nested_tensor` — `None`, a
concrete dtype, or a nested collection thereof (lists/dicts). -/
inductive DStruct where
  | atomD (d : Option DType)
  | seqD (xs : DStructList)
  | dictD (keys : List String) (xs : DStructList)
  deriving DecidableEq, Repr

inductive DStructList where
  | nil
  | cons (x : DStruct) (xs : DStructList)
  deriving DecidableEq, Repr
end

/-- `nest.is_nested` on a dtype structure. -/
def isNestedD : DStruct → Bool
  | .atomD _ => false
  | _ => true

/-- The atom constraint carried by a non-nested dtype structure. -/
def DStruct.atomVal : DStruct → Option DType
  | .atomD d => d
  | _ => none

mutual
/-- `nest.assert_same_structure` on two dtype structures (check_types
true): same container kinds, arities and key lists at every level. -/
def sameShapeD : DStruct → DStruct → Bool
  | .atomD _, .atomD _ => true
  | .seqD xs, .seqD ys => sameShapeDList xs ys
  | .dictD ks xs, .dictD ks2 ys => ks = ks2 && sameShapeDList xs ys
  | _, _ => false

def sameShapeDList : DStructList → DStructList → Bool
  | .nil, .nil => true
  | .cons x xs, .cons y ys => sameShapeD x y && sameShapeDList xs ys
  | _, _ => false
end

mutual
/-- `tf.nest.flatten` on a dtype structure. -/
def flattenD : DStruct → List DStruct
  | .atomD d => [.atomD d]
  | .seqD xs => flattenDList xs
  | .dictD _ xs => flattenDList xs

def flattenDList : DStructList → List DStruct
  | .nil => []
  | .cons x xs => flattenD x ++ flattenDList xs
end

mutual
/-- `tf.nest.map_structure(lambda _: x, t)` on a dtype structure. -/
def replaceLeavesD (t : DStruct) (x : DStruct) : DStruct :=
  match t with
  | .atomD _ => x
  | .seqD xs => .seqD (replaceLeavesDList xs x)
  | .dictD ks xs => .dictD ks (replaceLeavesDList xs x)

def replaceLeavesDList (ts : DStructList) (x : DStruct) : DStructList :=
  match ts with
  | .nil => .nil
  | .cons t rest => .cons (replaceLeavesD t x) (replaceLeavesDList rest x)
end

/-- `broadcast_structure` applied to dtype structures, as
`convert_to_nested_tensor` does at nest_util.py lines 251-254. -/
def broadcastD (toStructure fromStructure : DStruct) : DStruct :=
  match flattenD fromStructure with
  | [p] => replaceLeavesD toStructure p
  | _ => fromStructure

mutual
/-- `nest.map_structure_up_to(dtype, lambda s, dtype:
_nested_convert_to_tensor(s, dtype, name), args, dtype)`
(nest_util.py lines 186-188): traverse `args` down to the shape of the
dtype structure, converting each dtype-leaf-level substructure of `args`
under the corresponding constraint. -/
def mapArgsUpToDtype (d : DStruct) (s : Struct) (name : Option String) :
    Except PyErr Struct :=
  match d, s with
  | .atomD od, s => nestedConvertToTensor s od name
  | .seqD ds, .seq _ xs =>
    Except.map (Struct.seq noMarks) (mapArgsUpToDtypeList ds xs name)
  | .dictD ks ds, .dict _ ks2 xs =>
    if ks = ks2 then
      Except.map (Struct.dict noMarks ks) (mapArgsUpToDtypeList ds xs name)
    else .error (.valueError "dict keys of dtype and args do not match")
  | _, _ => .error (.typeError "dtype structure does not match args structure")

def mapArgsUpToDtypeList (ds : DStructList) (xs : StructList)
    (name : Option String) : Except PyErr StructList :=
  match ds, xs with
  | .nil, .nil => .ok .nil
  | .cons d ds, .cons x xs =>
    match mapArgsUpToDtype d x name with
    | .ok y =>
      match mapArgsUpToDtypeList ds xs name with
      | .ok ys => .ok (.cons y ys)
      | .error e => .error e
    | .error e => .error e
  | _, _ => .error (.valueError "dtype and args structures have different lengths")
end

/-- `convert_args_to_tensor(args, dtype, name)` (nest_util.py lines
122-188).  With no dtype: if `args` expands as `*args` or `**args`,
convert its immediate children eagerly (shallow map of
`_nested_convert_to_tensor`), keeping the top-level container; else
convert `args` itself eagerly.  With a dtype structure: map
`_nested_convert_to_tensor` up to the shape of `dtype`. -/
def convert_args_to_tensor (args : Struct) (dtype : Option DStruct)
    (name : Option String) : Except PyErr Struct :=
  match dtype with
  | none =>
    if expand_as_args args || expandAsKwargs args then
      fallbackConvert args name
    else nestedConvertToTensor args none name
  | some dt => mapArgsUpToDtype dt args name

/-- An already-typed element: a tensor, or an ndarray (treated like a
tensor for parity with the JAX backend — nest_util.py lines 258-259). -/
def isTypedLeaf : Struct → Bool
  | .atom _ (.tensor _) => true
  | .atom _ (.ndarray _ _ _) => true
  | _ => false

/-- Whether any leaf of `value` is already typed
(`any(tf.is_tensor(x) or isinstance(x, np.ndarray) for x in
nest.flatten(value))`, nest_util.py lines 257-260). -/
def containsTypedLeaf (value : Struct) : Bool :=
  (flatten value).any isTypedLeaf

/-- The inner `convert_fn(path, value, dtype, dtype_hint, name)` of
`convert_to_nested_tensor` (nest_util.py lines 256-264): when packing is
disallowed and `value` is a nested structure holding at least one typed
element, raise `NotImplementedError` carrying the offending path and
value; otherwise hand `value` to the leaf converter. -/
def convertFn (allowPacking : Bool) (path : List Key) (value : Struct)
    (dtype hint : Option DType) (name : Option String) : Except PyErr Tensor :=
  if !allowPacking && isNested value && containsTypedLeaf value then
    .error (.notImplemented path value)
  else convertToTensor value dtype hint name

/-- `str` of a path component. -/
def keyStr : Key → String
  | .idx n => toString n
  | .key s => s

/-- `'.'.join(map(str, path))` (nest_util.py line 275). -/
def pathName (path : List Key) : String :=
  String.intercalate "." (path.map keyStr)

mutual
/-- `nest.map_structure_with_tuple_paths_up_to(dtype, convert_fn, value,
dtype, dtype_hint, check_types=False)` (nest_util.py lines 276-277 and
281-282): traverse `value` down to the dtype structure's shape, calling
`convert_fn` with each leaf's path.  When `named` (a `name` was given),
each leaf is converted under the name `scope/path.to.elem`, modelling
`tf.name_scope(name)` around per-leaf names. -/
def mapConvertWithPaths (allowPacking : Bool) (named : Bool) (scope : String)
    (path : List Key) (d h : DStruct) (v : Struct) : Except PyErr Struct :=
  match d, v with
  | .atomD od, v =>
    let nm := if named then some (scope ++ "/" ++ pathName path) else none
    Except.map atomize (convertFn allowPacking path v od h.atomVal nm)
  | .seqD ds, .seq _ xs =>
    match h with
    | .seqD hs =>
      Except.map (Struct.seq noMarks)
        (mapConvertWithPathsSeq allowPacking named scope path 0 ds hs xs)
    | _ => .error (.typeError "dtype and dtype hint structures do not match")
  | .seqD ds, .ntup _ tn fs xs =>
    match h with
    | .seqD hs =>
      Except.map (Struct.ntup noMarks tn fs)
        (mapConvertWithPathsSeq allowPacking named scope path 0 ds hs xs)
    | _ => .error (.typeError "dtype and dtype hint structures do not match")
  | .dictD ks ds, .dict _ ks2 xs =>
    match h with
    | .dictD _ hs =>
      if ks = ks2 then
        Except.map (Struct.dict noMarks ks)
          (mapConvertWithPathsDict allowPacking named scope path ks ds hs xs)
      else .error (.valueError "dict keys of dtype and value do not match")
    | _ => .error (.typeError "dtype and dtype hint structures do not match")
  | _, _ => .error (.typeError "dtype structure does not match value structure")

def mapConvertWithPathsSeq (allowPacking : Bool) (named : Bool)
    (scope : String) (path : List Key) (i : Nat) (ds hs : DStructList)
    (xs : StructList) : Except PyErr StructList :=
  match ds, hs, xs with
  | .nil, _, .nil => .ok .nil
  | .cons d ds, .cons h hs, .cons x xs =>
    match mapConvertWithPaths allowPacking named scope (path ++ [.idx i]) d h x with
    | .ok y =>
      match mapConvertWithPathsSeq allowPacking named scope path (i + 1) ds hs xs with
      | .ok ys => .ok (.cons y ys)
      | .error e => .error e
    | .error e => .error e
  | _, _, _ => .error (.valueError "structures have different lengths")

def mapConvertWithPathsDict (allowPacking : Bool) (named : Bool)
    (scope : String) (path : List Key) (ks : List String)
    (ds hs : DStructList) (xs : StructList) : Except PyErr StructList :=
  match ks, ds, hs, xs with
  | [], .nil, _, .nil => .ok .nil
  | k :: ks, .cons d ds, .cons h hs, .cons x xs =>
    match mapConvertWithPaths allowPacking named scope (path ++ [.key k]) d h x with
    | .ok y =>
      match mapConvertWithPathsDict allowPacking named scope path ks ds hs xs with
      | .ok ys => .ok (.cons y ys)
      | .error e => .error e
    | .error e => .error e
  | _, _, _, _ => .error (.valueError "structures have different lengths")
end

/-- `convert_to_nested_tensor(value, dtype, dtype_hint, allow_packing,
name)` (nest_util.py lines 219-282).  Reconcile the dtype and dtype-hint
structures: both nested → they must have the same structure (ValueError
otherwise); exactly one nested → broadcast the atom onto it.  Then: with
a non-nested dtype, one unstructured `convert_fn` call with the provided
name; with a nested dtype, map `convert_fn` over `value` up to the dtype
structure, naming leaves by path under a scope when `name` is given. -/
def convert_to_nested_tensor (value : Struct) (dtype dtypeHint : DStruct)
    (allowPacking : Bool) (name : Option String) : Except PyErr Struct :=
  let dtypeIsNested := isNestedD dtype
  let hintIsNested := isNestedD dtypeHint
  if dtypeIsNested && hintIsNested && !sameShapeD dtype dtypeHint then
    .error (.valueError "the two structures do not match")
  else
    let dtype2 := if !dtypeIsNested && hintIsNested
                  then broadcastD dtypeHint dtype else dtype
    let hint2 := if dtypeIsNested && !hintIsNested
                 then broadcastD dtype dtypeHint else dtypeHint
    if !isNestedD dtype2 then
      Except.map atomize
        (convertFn allowPacking [] value dtype2.atomVal hint2.atomVal name)
    else
      match name with
      | some nm => mapConvertWithPaths allowPacking true nm [] dtype2 hint2 value
      | none => mapConvertWithPaths allowPacking false "" [] dtype2 hint2 value

/-!
Helper lemmas about the `tf.nest` primitives.
-/

mutual
theorem shapeOf_replaceLeaves (x : Struct) (hx : isNested x = false) :
    ∀ t : Struct, shapeOf (replaceLeaves t x) = shapeOf t
  | .atom m v => by
    cases x with
    | atom mx vx => rfl
    | seq _ _ => simp [isNested] at hx
    | ntup _ _ _ _ => simp [isNested] at hx
    | dict _ _ _ => simp [isNested] at hx
  | .seq m xs => by
    simp only [replaceLeaves, shapeOf, shapeOfList_replaceLeavesList x hx xs]
  | .ntup m tn fs xs => by
    simp only [replaceLeaves, shapeOf, shapeOfList_replaceLeavesList x hx xs]
  | .dict m ks xs => by
    simp only [replaceLeaves, shapeOf, shapeOfList_replaceLeavesList x hx xs]

theorem shapeOfList_replaceLeavesList (x : Struct) (hx : isNested x = false) :
    ∀ ts : StructList, shapeOfList (replaceLeavesList ts x) = shapeOfList ts
  | .nil => rfl
  | .cons t rest => by
    simp only [replaceLeavesList, shapeOfList, shapeOf_replaceLeaves x hx t,
      shapeOfList_replaceLeavesList x hx rest]
end

mutual
theorem flatten_replaceLeaves (x : Struct) (hx : isNested x = false) :
    ∀ t : Struct, flatten (replaceLeaves t x) = List.replicate (flatten t).length x
  | .atom m v => by
    cases x with
    | atom mx vx => rfl
    | seq _ _ => simp [isNested] at hx
    | ntup _ _ _ _ => simp [isNested] at hx
    | dict _ _ _ => simp [isNested] at hx
  | .seq m xs => by
    simp only [replaceLeaves, flatten, flattenList_replaceLeavesList x hx xs]
  | .ntup m tn fs xs => by
    simp only [replaceLeaves, flatten, flattenList_replaceLeavesList x hx xs]
  | .dict m ks xs => by
    simp only [replaceLeaves, flatten, flattenList_replaceLeavesList x hx xs]

theorem flattenList_replaceLeavesList (x : Struct) (hx : isNested x = false) :
    ∀ ts : StructList,
      flattenList (replaceLeavesList ts x) =
        List.replicate (flattenList ts).length x
  | .nil => rfl
  | .cons t rest => by
    simp only [replaceLeavesList, flattenList, flatten_replaceLeaves x hx t,
      flattenList_replaceLeavesList x hx rest, List.length_append]
    rw [List.replicate_add]
end

mutual
theorem flatten_not_nested :
    ∀ (s p : Struct), p ∈ flatten s → isNested p = false
  | .atom m v, p, hp => by
    simp only [flatten, List.mem_singleton] at hp
    subst hp; rfl
  | .seq m xs, p, hp => flattenList_not_nested xs p hp
  | .ntup m tn fs xs, p, hp => flattenList_not_nested xs p hp
  | .dict m ks xs, p, hp => flattenList_not_nested xs p hp

theorem flattenList_not_nested :
    ∀ (ts : StructList) (p : Struct), p ∈ flattenList ts → isNested p = false
  | .cons t rest, p, hp => by
    simp only [flattenList, List.mem_append] at hp
    rcases hp with h | h
    · exact flatten_not_nested t p h
    · exact flattenList_not_nested rest p h
end

/-!
Claims about the Structure Broadcaster (`broadcast_structure`).
-/

/-- Claim C2: when the source flattens to exactly one leaf,
`broadcast_structure(T, S)` is the shape of `T` with that single leaf at
every leaf position (the same value everywhere, no copy); when the source
flattens to any other number of leaves it is returned unchanged; and
`broadcast_structure(['a','b','c'], 'd') = ['d','d','d']`. -/
theorem broadcast_structure_spec :
    (∀ (T S p : Struct), flatten S = [p] →
        broadcast_structure T S = replaceLeaves T p ∧
        shapeOf (broadcast_structure T S) = shapeOf T ∧
        flatten (broadcast_structure T S) = List.replicate (flatten T).length p) ∧
    (∀ T S : Struct, (flatten S).length ≠ 1 → broadcast_structure T S = S) ∧
    broadcast_structure
        (.seq noMarks (.cons (.atom noMarks (.str "a"))
          (.cons (.atom noMarks (.str "b"))
            (.cons (.atom noMarks (.str "c")) .nil))))
        (.atom noMarks (.str "d")) =
      .seq noMarks (.cons (.atom noMarks (.str "d"))
        (.cons (.atom noMarks (.str "d"))
          (.cons (.atom noMarks (.str "d")) .nil))) := by
  refine ⟨?_, ?_, rfl⟩
  · intro T S p hS
    have hp : isNested p = false :=
      flatten_not_nested S p (by simp [hS])
    have hb : broadcast_structure T S = replaceLeaves T p := by
      simp [broadcast_structure, hS]
    exact ⟨hb, by rw [hb, shapeOf_replaceLeaves p hp T],
      by rw [hb, flatten_replaceLeaves p hp T]⟩
  · intro T S hS
    unfold broadcast_structure
    match h : flatten S with
    | [] => rfl
    | [p] => rw [h] at hS; simp at hS
    | p :: q :: rest => rfl

/-- Witness for C2 at the spec's example. -/
theorem broadcast_structure_spec_witness :
    broadcast_structure
        (.seq noMarks (.cons (.atom noMarks (.str "a"))
          (.cons (.atom noMarks (.str "b"))
            (.cons (.atom noMarks (.str "c")) .nil))))
        (.atom noMarks (.str "d")) =
      replaceLeaves
        (.seq noMarks (.cons (.atom noMarks (.str "a"))
          (.cons (.atom noMarks (.str "b"))
            (.cons (.atom noMarks (.str "c")) .nil))))
        (.atom noMarks (.str "d")) :=
  (broadcast_structure_spec.1
    (.seq noMarks (.cons (.atom noMarks (.str "a"))
      (.cons (.atom noMarks (.str "b"))
        (.cons (.atom noMarks (.str "c")) .nil))))
    (.atom noMarks (.str "d"))
    (.atom noMarks (.str "d")) rfl).1

/-- Claim C9: broadcasting is idempotent on singleton sources:
`broadcast_structure(T, broadcast_structure(T, S)) =
broadcast_structure(T, S)` whenever `S` flattens to exactly one leaf. -/
theorem broadcast_structure_idem (T S : Struct)
    (h : (flatten S).length = 1) :
    broadcast_structure T (broadcast_structure T S) =
      broadcast_structure T S := by
  obtain ⟨p, hS⟩ : ∃ p, flatten S = [p] := by
    match hf : flatten S with
    | [p] => exact ⟨p, rfl⟩
    | [] => rw [hf] at h; simp at h
    | p :: q :: rest => rw [hf] at h; simp at h
  have hp : isNested p = false := flatten_not_nested S p (by simp [hS])
  have hb : broadcast_structure T S = replaceLeaves T p := by
    simp [broadcast_structure, hS]
  rw [hb]
  have hf : flatten (replaceLeaves T p) = List.replicate (flatten T).length p :=
    flatten_replaceLeaves p hp T
  unfold broadcast_structure
  rw [hf]
  match hn : (flatten T).length with
  | 0 => rfl
  | 1 => simp [List.replicate]
  | n + 2 => simp [List.replicate]

/-- Witness for C9 at the spec's example template and source. -/
theorem broadcast_structure_idem_witness :
    broadcast_structure
        (.seq noMarks (.cons (.atom noMarks (.str "a"))
          (.cons (.atom noMarks (.str "b"))
            (.cons (.atom noMarks (.str "c")) .nil))))
        (broadcast_structure
          (.seq noMarks (.cons (.atom noMarks (.str "a"))
            (.cons (.atom noMarks (.str "b"))
              (.cons (.atom noMarks (.str "c")) .nil))))
          (.atom noMarks (.str "d"))) =
      broadcast_structure
        (.seq noMarks (.cons (.atom noMarks (.str "a"))
          (.cons (.atom noMarks (.str "b"))
            (.cons (.atom noMarks (.str "c")) .nil))))
        (.atom noMarks (.str "d")) :=
  broadcast_structure_idem
    (.seq noMarks (.cons (.atom noMarks (.str "a"))
      (.cons (.atom noMarks (.str "b"))
        (.cons (.atom noMarks (.str "c")) .nil))))
    (.atom noMarks (.str "d")) rfl

/-!
Claims about the Structure Classifier and the Call-Convention Resolver.
-/

/-- Counterexample to claim C4: a keyed mapping carrying the
force-positional marker.  The spec classifier says KeyedComposite (the
mapping rule precedes the force-positional rule) and the value is not
force-leaf, so the claim requires keyword expansion; the code's
`expand_as_args` returns true on it (the `or _force_expand_as_args`
clause), so `call_fn` expands it positionally — `fn(*dict)` receives the
dict's keys, not `fn(**dict)`. -/
theorem call_fn_forceArgs_dict_cex :
    specClassify (.dict ⟨false, true⟩ ["x"] (.cons (.atom noMarks (.int 1)) .nil))
        = .keyedComposite ∧
    forceLeaf (.dict ⟨false, true⟩ ["x"] (.cons (.atom noMarks (.int 1)) .nil))
        = false ∧
    call_fn (fun i => i)
        (.dict ⟨false, true⟩ ["x"] (.cons (.atom noMarks (.int 1)) .nil)) =
      .ok (.positional [.atom noMarks (.str "x")]) ∧
    Invocation.positional [.atom noMarks (.str "x")] ≠
      Invocation.keyword ["x"] [.atom noMarks (.int 1)] := by
  refine ⟨rfl, rfl, rfl, ?_⟩
  decide

/-- Claim C4 as amended: `call_fn` invokes `fn` in exactly one of three
ways, decided by the code's own predicates — positionally expanded when
`expand_as_args(args)` holds (a plain non-namedtuple, non-force-leaf
sequence, or any value carrying the force-positional marker, which takes
precedence even over keyed mappings and the force-leaf marker), keyword
expanded when `expand_as_args` fails and `args` is a non-force-leaf
mapping, and as a single opaque argument otherwise; the spec's three
examples hold: `f([1,2])` → `f(1,2)`, `f({'x':1})` → `f(x=1)`,
`f(5)` → `f(5)`. -/
theorem call_fn_dispatch {R : Type} (fn : Invocation → R) (args : Struct) :
    (expand_as_args args = true → ∀ xs, starList args = some xs →
        call_fn fn args = .ok (fn (.positional xs))) ∧
    (expand_as_args args = false → ∀ m ks xs,
        args = .dict m ks xs → m.forceLeaf = false →
        call_fn fn args = .ok (fn (.keyword ks xs.toList))) ∧
    (expand_as_args args = false → expandAsKwargs args = false →
        call_fn fn args = .ok (fn (.single args))) ∧
    call_fn fn (.seq noMarks (.cons (.atom noMarks (.int 1))
        (.cons (.atom noMarks (.int 2)) .nil))) =
      .ok (fn (.positional [.atom noMarks (.int 1), .atom noMarks (.int 2)])) ∧
    call_fn fn (.dict noMarks ["x"] (.cons (.atom noMarks (.int 1)) .nil)) =
      .ok (fn (.keyword ["x"] [.atom noMarks (.int 1)])) ∧
    call_fn fn (.atom noMarks (.int 5)) = .ok (fn (.single (.atom noMarks (.int 5)))) := by
  refine ⟨?_, ?_, ?_, rfl, rfl, rfl⟩
  · intro ha xs hxs
    simp [call_fn, ha, hxs]
  · intro ha m ks xs hargs hm
    subst hargs
    simp [call_fn, ha, expandAsKwargs, isMapping, forceLeaf, Struct.marks, hm]
  · intro ha hk
    simp [call_fn, ha, hk]

/-- Witness for C4 (amended), exercising each of the three dispatch
branches of `call_fn_dispatch` at a concrete input. -/
theorem call_fn_dispatch_witness :
    call_fn (fun i => i) (.seq noMarks (.cons (.atom noMarks (.int 1))
        (.cons (.atom noMarks (.int 2)) .nil))) =
      .ok (.positional [.atom noMarks (.int 1), .atom noMarks (.int 2)]) ∧
    call_fn (fun i => i)
        (.dict noMarks ["x"] (.cons (.atom noMarks (.int 1)) .nil)) =
      .ok (.keyword ["x"] [.atom noMarks (.int 1)]) ∧
    call_fn (fun i => i) (.atom noMarks (.int 5)) =
      .ok (.single (.atom noMarks (.int 5))) :=
  ⟨(call_fn_dispatch (fun i => i)
      (.seq noMarks (.cons (.atom noMarks (.int 1))
        (.cons (.atom noMarks (.int 2)) .nil)))).1 rfl
      [.atom noMarks (.int 1), .atom noMarks (.int 2)] rfl,
   ((call_fn_dispatch (fun i => i)
      (.dict noMarks ["x"] (.cons (.atom noMarks (.int 1)) .nil))).2.1 rfl
      noMarks ["x"] (.cons (.atom noMarks (.int 1)) .nil) rfl rfl),
   ((call_fn_dispatch (fun i => i) (.atom noMarks (.int 5))).2.2.1 rfl rfl)⟩

/-- Counterexample to claim C7: a sequence carrying both the force-leaf
and the force-positional markers.  The claim says the force-leaf rule has
top priority, so the value is a Leaf and is never positionally expanded;
in the code `_force_expand_as_args` is disjoined last, so the value is
positionally expanded. -/
theorem expand_as_args_both_markers_cex :
    forceLeaf (.seq ⟨true, true⟩ (.cons (.atom noMarks (.int 1)) .nil)) = true ∧
    expand_as_args (.seq ⟨true, true⟩ (.cons (.atom noMarks (.int 1)) .nil)) = true ∧
    call_fn (fun i => i) (.seq ⟨true, true⟩ (.cons (.atom noMarks (.int 1)) .nil)) =
      .ok (.positional [.atom noMarks (.int 1)]) := ⟨rfl, rfl, rfl⟩

/-- Claim C7 as amended: a value carrying the force-leaf marker is
treated as a Leaf — it is neither positionally nor keyword expanded —
regardless of its runtime kind, provided the force-positional marker is
absent; when the force-positional marker is also present it wins, and the
value is positionally expanded. -/
theorem forceLeaf_never_expanded (v : Struct) :
    (forceLeaf v = true → forceExpandAsArgs v = false →
        expand_as_args v = false ∧ expandAsKwargs v = false) ∧
    (forceExpandAsArgs v = true → expand_as_args v = true) := by
  constructor
  · intro hl ha
    constructor
    · simp [expand_as_args, hl, ha]
    · simp [expandAsKwargs, hl]
  · intro ha
    simp [expand_as_args, ha]

/-- Witness for C7 (amended): a force-leaf list (no force-positional
marker) is not expanded either way; adding force-positional makes it
positionally expandable. -/
theorem forceLeaf_never_expanded_witness :
    (expand_as_args (.seq ⟨true, false⟩ (.cons (.atom noMarks (.int 1)) .nil)) = false ∧
     expandAsKwargs (.seq ⟨true, false⟩ (.cons (.atom noMarks (.int 1)) .nil)) = false) ∧
    expand_as_args (.atom ⟨false, true⟩ (.int 7)) = true :=
  ⟨(forceLeaf_never_expanded
      (.seq ⟨true, false⟩ (.cons (.atom noMarks (.int 1)) .nil))).1 rfl rfl,
   (forceLeaf_never_expanded (.atom ⟨false, true⟩ (.int 7))).2 rfl⟩

/-- Claim C8: a namedtuple without the force-positional marker is neither
positionally nor keyword expanded — `call_fn` passes it as a single
argument — even though it is sequence-like; with the force-positional
marker set it is positionally expanded. -/
theorem namedtuple_not_expanded (m : Marks) (tn : String) (fs : List String)
    (xs : StructList) :
    (m.forceArgs = false →
        expand_as_args (.ntup m tn fs xs) = false ∧
        expandAsKwargs (.ntup m tn fs xs) = false ∧
        ∀ (R : Type) (fn : Invocation → R),
          call_fn fn (.ntup m tn fs xs) = .ok (fn (.single (.ntup m tn fs xs)))) ∧
    (m.forceArgs = true →
        expand_as_args (.ntup m tn fs xs) = true ∧
        ∀ (R : Type) (fn : Invocation → R),
          call_fn fn (.ntup m tn fs xs) = .ok (fn (.positional xs.toList))) := by
  constructor
  · intro hm
    have ha : expand_as_args (.ntup m tn fs xs) = false := by
      simp [expand_as_args, isNamedtuple, forceExpandAsArgs, Struct.marks, hm]
    have hk : expandAsKwargs (.ntup m tn fs xs) = false := by
      simp [expandAsKwargs, isMapping]
    exact ⟨ha, hk, fun R fn => by simp [call_fn, ha, hk]⟩
  · intro hm
    have ha : expand_as_args (.ntup m tn fs xs) = true := by
      simp [expand_as_args, forceExpandAsArgs, Struct.marks, hm]
    exact ⟨ha, fun R fn => by simp [call_fn, ha, starList]⟩

/-- Witness for C8 at a concrete two-field record. -/
theorem namedtuple_not_expanded_witness :
    call_fn (fun i => i)
        (.ntup noMarks "Pair" ["a", "b"]
          (.cons (.atom noMarks (.int 1)) (.cons (.atom noMarks (.int 2)) .nil))) =
      .ok (.single (.ntup noMarks "Pair" ["a", "b"]
        (.cons (.atom noMarks (.int 1)) (.cons (.atom noMarks (.int 2)) .nil)))) ∧
    call_fn (fun i => i)
        (.ntup ⟨false, true⟩ "Pair" ["a", "b"]
          (.cons (.atom noMarks (.int 1)) (.cons (.atom noMarks (.int 2)) .nil))) =
      .ok (.positional [.atom noMarks (.int 1), .atom noMarks (.int 2)]) :=
  ⟨((namedtuple_not_expanded noMarks "Pair" ["a", "b"]
      (.cons (.atom noMarks (.int 1)) (.cons (.atom noMarks (.int 2)) .nil))).1
      rfl).2.2 Invocation (fun i => i),
   ((namedtuple_not_expanded ⟨false, true⟩ "Pair" ["a", "b"]
      (.cons (.atom noMarks (.int 1)) (.cons (.atom noMarks (.int 2)) .nil))).2
      rfl).2 Invocation (fun i => i)⟩

/-!
Claims about the Recursive Conversion Engine's dtype and name policy.
-/

/-- Claim C6: when a dtype tag is present, `_nested_convert_to_tensor`
converts the value directly in a single leaf-converter call —
`tf.convert_to_tensor(struct, dtype=dtype)` — with no structural
recursion, even when the value is a composite (and, line 107, without
forwarding the name). -/
theorem nested_convert_dtype_direct (v : Struct) (d : DType) (nm : Option String) :
    nestedConvertToTensor v (some d) nm =
      Except.map atomize (convertToTensor v (some d) none none) := by
  cases v <;> rfl

/-- Claim C10: the `name` argument reaches only whole-structure
conversion attempts on nested composites.  When a concrete dtype is given
(line 107: `tf.convert_to_tensor(struct, dtype=dtype)`), or the value is
a non-nested leaf, the leaf converter is invoked with no name — through
`_nested_convert_to_tensor` directly and through
`convert_args_to_tensor`. -/
theorem name_only_for_wholesale (v : Struct) (d : DType) (nm : Option String) :
    nestedConvertToTensor v (some d) nm =
      Except.map atomize (convertToTensor v (some d) none none) ∧
    (isNested v = false →
      nestedConvertToTensor v none nm =
        Except.map atomize (convertToTensor v none none none)) ∧
    (isNested v = false →
      convert_args_to_tensor v none nm =
        Except.map atomize (convertToTensor v none none none)) ∧
    convert_args_to_tensor v (some (.atomD (some d))) nm =
      Except.map atomize (convertToTensor v (some d) none none) := by
  refine ⟨by cases v <;> rfl, ?_, ?_, by cases v <;> rfl⟩
  · intro h
    cases v with
    | atom m lv => rfl
    | seq m xs => simp [isNested] at h
    | ntup m tn fs xs => simp [isNested] at h
    | dict m ks xs => simp [isNested] at h
  · intro h
    cases v with
    | atom m lv =>
      show (if expand_as_args (.atom m lv) || expandAsKwargs (.atom m lv)
            then fallbackConvert (.atom m lv) nm
            else nestedConvertToTensor (.atom m lv) none nm) = _
      split <;> rfl
    | seq m xs => simp [isNested] at h
    | ntup m tn fs xs => simp [isNested] at h
    | dict m ks xs => simp [isNested] at h

/-- Witness for C10: with a concrete dtype, or on a raw scalar leaf, the
converted tensor records no name even though a name was supplied. -/
theorem name_only_for_wholesale_witness :
    nestedConvertToTensor (.atom noMarks (.int 5)) (some .i32) (some "scope") =
      Except.map atomize (convertToTensor (.atom noMarks (.int 5)) (some .i32) none none) ∧
    nestedConvertToTensor (.atom noMarks (.int 5)) none (some "scope") =
      Except.map atomize (convertToTensor (.atom noMarks (.int 5)) none none none) ∧
    convert_args_to_tensor (.atom noMarks (.int 5)) none (some "scope") =
      Except.map atomize (convertToTensor (.atom noMarks (.int 5)) none none none) :=
  ⟨(name_only_for_wholesale (.atom noMarks (.int 5)) .i32 (some "scope")).1,
   (name_only_for_wholesale (.atom noMarks (.int 5)) .i32 (some "scope")).2.1 rfl,
   (name_only_for_wholesale (.atom noMarks (.int 5)) .i32 (some "scope")).2.2.1 rfl⟩

/-!
Claims about the error-handling policy of the Recursive Conversion
Engine.
-/

/-- Unfolding of `_nested_convert_to_tensor` on a nested structure whose
wholesale conversion is attempted: try the whole structure; on a
recoverable error fall back to the shallow per-child recursion. -/
theorem nestedConvertToTensor_nested_eq (s : Struct) (nm : Option String)
    (hn : isNested s = true) (hc : maybeConvertibleToTensor s = true) :
    nestedConvertToTensor s none nm =
      match convertToTensor s none none nm with
      | .ok t => .ok (atomize t)
      | .error e => if isRecoverable e then fallbackConvert s nm else .error e := by
  cases s with
  | atom m lv => simp [isNested] at hn
  | seq m xs => rfl
  | dict m ks xs => rfl
  | ntup m tn fs xs =>
    obtain ⟨fl, fa⟩ := m
    cases fl with
    | true => rfl
    | false =>
      simp [maybeConvertibleToTensor, isNamedtuple, forceLeaf, Struct.marks] at hc

/-- Unfolding of `_nested_convert_to_tensor` on a nested structure whose
wholesale conversion is skipped (a namedtuple without the force-leaf
marker): go straight to the shallow per-child recursion. -/
theorem nestedConvertToTensor_skip_eq (s : Struct) (nm : Option String)
    (hn : isNested s = true) (hc : maybeConvertibleToTensor s = false) :
    nestedConvertToTensor s none nm = fallbackConvert s nm := by
  cases s with
  | atom m lv => simp [isNested] at hn
  | seq m xs => simp [maybeConvertibleToTensor, isNamedtuple] at hc
  | dict m ks xs => simp [maybeConvertibleToTensor, isNamedtuple] at hc
  | ntup m tn fs xs =>
    obtain ⟨fl, fa⟩ := m
    cases fl with
    | true =>
      simp [maybeConvertibleToTensor, isNamedtuple, forceLeaf, Struct.marks] at hc
    | false => rfl

/-- Claim C3: when the wholesale conversion attempt on a composite fails
with a recoverable error (`ValueError`/`TypeError`), the engine performs
exactly one fallback — shallow structure plus recursive conversion of
each immediate child, reassembled into the original container kind; any
other error from the wholesale attempt propagates unchanged; and a
composite whose whole-structure conversion is undefined (a dict) still
converts by recursing into its two children. -/
theorem nested_convert_error_policy (s : Struct) (nm : Option String) (e : PyErr)
    (hn : isNested s = true) (hc : maybeConvertibleToTensor s = true)
    (he : convertToTensor s none none nm = .error e) :
    (isRecoverable e = true →
        nestedConvertToTensor s none nm = fallbackConvert s nm) ∧
    (isRecoverable e = false → nestedConvertToTensor s none nm = .error e) ∧
    nestedConvertToTensor
        (.dict noMarks ["a", "b"]
          (.cons (.atom noMarks (.int 1)) (.cons (.atom noMarks (.int 2)) .nil)))
        none none =
      .ok (.dict noMarks ["a", "b"]
        (.cons (.atom noMarks (.tensor ⟨.i32, [], [.i 1], none⟩))
          (.cons (.atom noMarks (.tensor ⟨.i32, [], [.i 2], none⟩)) .nil))) := by
  refine ⟨?_, ?_, rfl⟩
  · intro hr
    rw [nestedConvertToTensor_nested_eq s nm hn hc, he]
    simp [hr]
  · intro hr
    rw [nestedConvertToTensor_nested_eq s nm hn hc, he]
    simp [hr]

/-- Witness for C3: the recoverable branch at a dict (wholesale
conversion raises `TypeError`, the engine recurses), and the propagation
branch at a list holding a value whose conversion function raises a
non-recoverable error. -/
theorem nested_convert_error_policy_witness :
    nestedConvertToTensor
        (.dict noMarks ["a", "b"]
          (.cons (.atom noMarks (.int 1)) (.cons (.atom noMarks (.int 2)) .nil)))
        none none =
      fallbackConvert
        (.dict noMarks ["a", "b"]
          (.cons (.atom noMarks (.int 1)) (.cons (.atom noMarks (.int 2)) .nil)))
        none ∧
    nestedConvertToTensor
        (.seq noMarks (.cons (.atom noMarks (.raises .otherErr "boom")) .nil))
        none none =
      .error (.other "boom") :=
  ⟨(nested_convert_error_policy
      (.dict noMarks ["a", "b"]
        (.cons (.atom noMarks (.int 1)) (.cons (.atom noMarks (.int 2)) .nil)))
      none
      (.typeError "attempt to convert a value with an unsupported type (dict) to a tensor")
      rfl rfl rfl).1 rfl,
   ((nested_convert_error_policy
      (.seq noMarks (.cons (.atom noMarks (.raises .otherErr "boom")) .nil))
      none (.other "boom") rfl rfl rfl).2.1 rfl)⟩

/-!
Claims about the Structured Conversion Orchestrator
(`convert_to_nested_tensor`).
-/

/-- The spec's stacking example: `[[T1], [T2]]`, a list of sub-lists that
already contain typed elements. -/
def exStack : Struct :=
  .seq noMarks
    (.cons (.seq noMarks (.cons (.atom noMarks (.tensor ⟨.i32, [], [.i 1], none⟩)) .nil))
      (.cons (.seq noMarks (.cons (.atom noMarks (.tensor ⟨.i32, [], [.i 2], none⟩)) .nil))
        .nil))

/-- A list of two typed elements of different shapes: stacking it cannot
succeed even when packing is allowed. -/
def exRagged : Struct :=
  .seq noMarks
    (.cons (.atom noMarks (.tensor ⟨.i32, [], [.i 1], none⟩))
      (.cons (.atom noMarks (.tensor ⟨.i32, [2], [.i 1, .i 2], none⟩)) .nil))

/-- Counterexample to claim C5: `exRagged` is a composite holding
already-typed elements, yet `convert_to_nested_tensor` with
`allow_packing=True` does not succeed — the leaf converter cannot stack
tensors of different shapes, so the call fails with `ValueError` instead
of producing one stacked typed value. -/
theorem convert_nested_packing_cex :
    isNested exRagged = true ∧ containsTypedLeaf exRagged = true ∧
    convert_to_nested_tensor exRagged (.atomD none) (.atomD none) true none =
      .error (.valueError "cannot convert ragged or mixed sequence to a tensor") :=
  ⟨rfl, rfl, rfl⟩

/-- Claim C5 as amended: for every value that is a composite containing
at least one already-typed (tensor or array-like) element, conversion
under an atomic type tag with `allow_packing=False` fails with the
implicit-stack error (`NotImplementedError`) carrying the offending path
and value; with `allow_packing=True` the guard is skipped and the whole
value goes to the leaf converter, which produces one stacked typed value
when the elements stack uniformly — as on the spec's example
`[[T1],[T2]]` — though it may still fail (e.g. on ragged elements). -/
theorem convert_nested_stack_guard (v : Struct) (od oh : Option DType)
    (nm : Option String) (hn : isNested v = true)
    (ht : containsTypedLeaf v = true) :
    convert_to_nested_tensor v (.atomD od) (.atomD oh) false nm =
      .error (.notImplemented [] v) ∧
    convert_to_nested_tensor v (.atomD od) (.atomD oh) true nm =
      Except.map atomize (convertToTensor v od oh nm) ∧
    convert_to_nested_tensor exStack (.atomD none) (.atomD none) true none =
      .ok (atomize ⟨.i32, [2, 1], [.i 1, .i 2], none⟩) := by
  refine ⟨?_, rfl, rfl⟩
  show Except.map atomize (convertFn false [] v od oh nm) = _
  simp [convertFn, hn, ht, Except.map]

/-- Witness for C5 at the spec's stacking example: with packing
disallowed the guard error carries the path and value; with packing
allowed the example converts. -/
theorem convert_nested_stack_guard_witness :
    convert_to_nested_tensor exStack (.atomD none) (.atomD none) false none =
      .error (.notImplemented [] exStack) ∧
    convert_to_nested_tensor exStack (.atomD none) (.atomD none) true none =
      .ok (atomize ⟨.i32, [2, 1], [.i 1, .i 2], none⟩) :=
  ⟨(convert_nested_stack_guard exStack none none none rfl rfl).1,
   (convert_nested_stack_guard exStack none none none rfl rfl).2.2⟩

/-!
Claims about Shape preservation of the Recursive Conversion Engine.
-/

mutual
/-- Structures on which the wholesale conversion attempt can never
succeed at any composite: every composite is a dict (wholesale conversion
raises `TypeError`) or a namedtuple without the force-leaf marker
(wholesale conversion is skipped), and every leaf converts.  Plain
sequences are excluded: their wholesale conversion can succeed and
collapse them. -/
def shapeSafe : Struct → Bool
  | .atom _ (.raises _ _) => false
  | .atom _ _ => true
  | .seq _ _ => false
  | .ntup m _ _ xs => !m.forceLeaf && shapeSafeList xs
  | .dict _ _ xs => shapeSafeList xs

def shapeSafeList : StructList → Bool
  | .nil => true
  | .cons x xs => shapeSafe x && shapeSafeList xs
end

mutual
theorem shapeSafe_convert (nm : Option String) :
    ∀ v : Struct, shapeSafe v = true →
      ∃ w, nestedConvertToTensor v none nm = .ok w ∧ shapeOf w = shapeOf v ∧
        (flatten w).all isTypedLeaf = true
  | .atom m (.int n), _ => ⟨atomize ⟨.i32, [], [.i n], none⟩, rfl, rfl, rfl⟩
  | .atom m (.str st), _ => ⟨atomize ⟨.strT, [], [.s st], none⟩, rfl, rfl, rfl⟩
  | .atom m (.tensor t), _ => ⟨atomize t, rfl, rfl, rfl⟩
  | .atom m (.ndarray dt sh da), _ => ⟨atomize ⟨dt, sh, da, none⟩, rfl, rfl, rfl⟩
  | .atom m (.raises k msg), h => Bool.noConfusion h
  | .seq m xs, h => Bool.noConfusion h
  | .ntup ⟨fl, fa⟩ tn fs xs, h => by
    cases fl with
    | true => exact Bool.noConfusion h
    | false =>
      obtain ⟨ws, hws, hsws, hfws⟩ := shapeSafe_convertList nm xs h
      refine ⟨.ntup noMarks tn fs ws, ?_, ?_, hfws⟩
      · show Except.map (Struct.ntup noMarks tn fs) (nestedConvertList xs nm) =
          .ok (.ntup noMarks tn fs ws)
        rw [hws]; rfl
      · show Shape.ntupS tn fs (shapeOfList ws) = Shape.ntupS tn fs (shapeOfList xs)
        rw [hsws]
  | .dict m ks xs, h => by
    obtain ⟨ws, hws, hsws, hfws⟩ := shapeSafe_convertList nm xs h
    refine ⟨.dict noMarks ks ws, ?_, ?_, hfws⟩
    · have hstep : nestedConvertToTensor (.dict m ks xs) none nm =
          Except.map (Struct.dict noMarks ks) (nestedConvertList xs nm) := rfl
      rw [hstep, hws]; rfl
    · show Shape.dictS ks (shapeOfList ws) = Shape.dictS ks (shapeOfList xs)
      rw [hsws]

theorem shapeSafe_convertList (nm : Option String) :
    ∀ xs : StructList, shapeSafeList xs = true →
      ∃ ws, nestedConvertList xs nm = .ok ws ∧ shapeOfList ws = shapeOfList xs ∧
        (flattenList ws).all isTypedLeaf = true
  | .nil, _ => ⟨.nil, rfl, rfl, rfl⟩
  | .cons x rest, h => by
    rw [shapeSafeList, Bool.and_eq_true] at h
    obtain ⟨w, hw, hsw, hfw⟩ := shapeSafe_convert nm x h.1
    obtain ⟨ws, hws, hsws, hfws⟩ := shapeSafe_convertList nm rest h.2
    refine ⟨.cons w ws, ?_, ?_, ?_⟩
    · show (match nestedConvertToTensor x none nm with
            | .ok y =>
              match nestedConvertList rest nm with
              | .ok ys => Except.ok (StructList.cons y ys)
              | .error e => Except.error e
            | .error e => Except.error e) = Except.ok (StructList.cons w ws)
      rw [hw, hws]
    · show ShapeList.cons (shapeOf w) (shapeOfList ws) =
        ShapeList.cons (shapeOf x) (shapeOfList rest)
      rw [hsw, hsws]
    · show (flatten w ++ flattenList ws).all isTypedLeaf = true
      rw [List.all_append, hfw, hfws]; rfl
end

/-- Counterexample to claim C1: the engine does not preserve Shape in
general.  On the list `[1, 2]` the wholesale conversion attempt succeeds,
collapsing the two-element list into one rank-1 tensor: the output is a
single Leaf, not a list of two Leaves. -/
theorem convert_shape_cex :
    nestedConvertToTensor
        (.seq noMarks (.cons (.atom noMarks (.int 1))
          (.cons (.atom noMarks (.int 2)) .nil))) none none =
      .ok (.atom noMarks (.tensor ⟨.i32, [2], [.i 1, .i 2], none⟩)) ∧
    shapeOf (.atom noMarks (.tensor ⟨.i32, [2], [.i 1, .i 2], none⟩)) ≠
      shapeOf (.seq noMarks (.cons (.atom noMarks (.int 1))
        (.cons (.atom noMarks (.int 2)) .nil))) :=
  ⟨rfl, by decide⟩

/-- Claim C1 as amended: the engine preserves Shape exactly when the
wholesale conversion attempt cannot succeed at any composite — every
composite of `v` is a keyed mapping or a fixed-field record without the
force-leaf marker, and every leaf converts.  For such `v`,
`convert(v)` (absent type tag) returns a Structure with the same Shape as
`v` — identical container kinds, key sets, and field order at every level
— with every Leaf replaced by a converted typed value.  (In general a
composite whose wholesale conversion succeeds, e.g. a plain list of
scalars, is collapsed into a single typed value.) -/
theorem convert_shape_preserved (v : Struct) (nm : Option String)
    (h : shapeSafe v = true) :
    ∃ w, nestedConvertToTensor v none nm = .ok w ∧ shapeOf w = shapeOf v ∧
      (flatten w).all isTypedLeaf = true :=
  shapeSafe_convert nm v h

/-- Witness for C1 (amended) at a record-of-dict structure. -/
theorem convert_shape_preserved_witness :
    ∃ w, nestedConvertToTensor
        (.ntup noMarks "Pair" ["a", "b"]
          (.cons (.dict noMarks ["k"] (.cons (.atom noMarks (.int 3)) .nil))
            (.cons (.atom noMarks (.int 4)) .nil))) none none = .ok w ∧
      shapeOf w = shapeOf
        (.ntup noMarks "Pair" ["a", "b"]
          (.cons (.dict noMarks ["k"] (.cons (.atom noMarks (.int 3)) .nil))
            (.cons (.atom noMarks (.int 4)) .nil))) ∧
      (flatten w).all isTypedLeaf = true :=
  convert_shape_preserved
    (.ntup noMarks "Pair" ["a", "b"]
      (.cons (.dict noMarks ["k"] (.cons (.atom noMarks (.int 3)) .nil))
        (.cons (.atom noMarks (.int 4)) .nil))) none rfl
